import Mathlib

/-!
Verification of the Yobit API client (src/Yobit.js) against its
natural-language specification.

The JavaScript source is shallowly embedded: pure helpers become Lean
functions, the stateful private-request path (`_request`) becomes an
explicit state transformer on the client record, and the cooperative
async interleaving relevant to the nonce race is modelled as a small-step
scheduler over two task states.  The HMAC-SHA512 primitive comes from the
external crypto-js dependency, so it is kept abstract: every definition
that signs takes the hex-HMAC function as an explicit parameter, and the
theorems quantify over it.
-/

namespace YobitModel

/-- A JavaScript primitive value as it can appear in a form/body mapping:
a string, an integer number, or `undefined` (an omitted parameter that was
still destructured and passed through). -/
inductive JsVal where
  | str : String → JsVal
  | num : Int → JsVal
  | undef : JsVal
deriving DecidableEq, Repr

/-- Upper-case hex digit, as produced by Node's percent-encoding. -/
def hexDigit (n : Nat) : Char :=
  if n < 10 then Char.ofNat (48 + n) else Char.ofNat (55 + n)

/-- UTF-8 byte sequence of a Unicode code point (as Nat arithmetic, so the
kernel can evaluate it). -/
def utf8Bytes (n : Nat) : List Nat :=
  if n < 0x80 then [n]
  else if n < 0x800 then [0xC0 + n / 64, 0x80 + n % 64]
  else if n < 0x10000 then
    [0xE0 + n / 4096, 0x80 + (n / 64) % 64, 0x80 + n % 64]
  else
    [0xF0 + n / 262144, 0x80 + (n / 4096) % 64, 0x80 + (n / 64) % 64,
     0x80 + n % 64]

/-- Characters Node's `querystring.escape` leaves unescaped
(the `encodeURIComponent` unreserved set: alphanumerics and `-_.!~*'()`). -/
def qsUnescaped (c : Char) : Bool :=
  (('A' ≤ c && c ≤ 'Z') || ('a' ≤ c && c ≤ 'z') || ('0' ≤ c && c ≤ '9')
    || c = '-' || c = '_' || c = '.' || c = '!' || c = '~' || c = '*'
    || c = '\x27' || c = '(' || c = ')')

/-- Percent-encode one byte as `%XY` with upper-case hex. -/
def percentByte (b : Nat) : List Char :=
  ['%', hexDigit (b / 16), hexDigit (b % 16)]

/-- Node's `querystring.escape`: unreserved characters pass through, every
other character is UTF-8 encoded and percent-escaped byte by byte. -/
def qsEscape (s : String) : String :=
  String.mk (s.data.flatMap fun c =>
    if qsUnescaped c then [c]
    else (utf8Bytes c.toNat).flatMap percentByte)

/-- How `querystring.stringify` renders a single value: strings are
escaped, numbers are printed in decimal, and `undefined` (like any
non-primitive) becomes the empty string. -/
def JsVal.serialize : JsVal → String
  | .str s => qsEscape s
  | .num n => toString n
  | .undef => ""

/-- JavaScript's `Array.prototype.join(sep)`. -/
def joinWith (sep : String) : List String → String
  | [] => ""
  | [x] => x
  | x :: y :: xs => x ++ sep ++ joinWith sep (y :: xs)

/-- Node's `querystring.stringify` over an insertion-ordered mapping:
`k1=v1&k2=v2&...` in insertion order. -/
def querystringStringify (form : List (String × JsVal)) : String :=
  joinWith "&" (form.map fun p => qsEscape p.1 ++ "=" ++ p.2.serialize)

/-- JavaScript's `String.prototype.toLowerCase` restricted to the ASCII
range (all inputs in this API are ASCII pair symbols). -/
def jsToLowerCase (s : String) : String :=
  String.mk (s.data.map Char.toLower)

/-- The argument of `_formatPairs`: either a single pair string or an
array of pair strings. -/
inductive Pairs where
  | str : String → Pairs
  | arr : List String → Pairs
deriving DecidableEq, Repr

/-- `Yobit._formatPairs` (src/Yobit.js:37-40): an array is joined with
`-` and lower-cased; anything else is lower-cased directly. -/
def formatPairs : Pairs → String
  | .arr ps => jsToLowerCase (joinWith "-" ps)
  | .str s => jsToLowerCase s

/-- URL constants (src/Yobit.js:6-10). -/
def apiHost : String := "https://yobit.net"

/-- Public API path segment (src/Yobit.js:7). -/
def publicApiSufix : String := "api/3"

/-- Private API path segment (src/Yobit.js:8). -/
def privateApiSufix : String := "tapi"

/-- Public API base URL (src/Yobit.js:9). -/
def publicApiUrl : String := apiHost ++ "/" ++ publicApiSufix

/-- Private API endpoint URL (src/Yobit.js:10). -/
def privateApiUrl : String := apiHost ++ "/" ++ privateApiSufix

/-- `Yobit._publicUrl` (src/Yobit.js:33-35). -/
def publicUrl (m : String) : String := publicApiUrl ++ "/" ++ m

/-- The option object handed to `request-promise`.  Fields that a caller
may leave out of the literal are `Option`s (`none` = the property is
absent from the object). -/
structure RpRequest where
  uri : String
  httpMethod : Option String
  qs : Option (List (String × JsVal))
  headers : Option (List (String × String))
  form : Option (List (String × JsVal))
  proxy : Option String
  json : Bool
deriving Repr

/-- `Yobit.info` (src/Yobit.js:63-65): bare GET of the public info URL. -/
def info : RpRequest :=
  { uri := publicUrl "info", httpMethod := none, qs := none,
    headers := none, form := none, proxy := none, json := true }

/-- `Yobit.ticker` (src/Yobit.js:85-87). -/
def ticker (pairs : Pairs) : RpRequest :=
  { uri := publicUrl ("ticker/" ++ formatPairs pairs), httpMethod := none,
    qs := none, headers := none, form := none, proxy := none, json := true }

/-- `Yobit.depth` (src/Yobit.js:112-118); `limit` defaults to 100. -/
def depth (pairs : Pairs) (limit : Int := 100) : RpRequest :=
  { uri := publicUrl ("depth/" ++ formatPairs pairs), httpMethod := none,
    qs := some [("limit", .num limit)], headers := none, form := none,
    proxy := none, json := true }

/-- `Yobit.trades` (src/Yobit.js:145-147). -/
def trades (pairs : Pairs) : RpRequest :=
  { uri := publicUrl ("trades/" ++ formatPairs pairs), httpMethod := none,
    qs := none, headers := none, form := none, proxy := none, json := true }

/-- The `options` object of the constructor (src/Yobit.js:24-31).
`nonce` and `proxyUrl` are `none` when the property is absent/undefined;
`nonceUpdateFn` is `none` when absent, undefined or null (a function value
is always truthy in JavaScript, so `some f` is never falsy). -/
structure YobitOptions where
  nonce : Option Int
  nonceUpdateFn : Option (Int → Int)
  proxyUrl : Option String

/-- The client instance state: the fields assigned in the constructor
(src/Yobit.js:26-30).  The nonce-update policy is embedded as a pure
`Int → Int`; its possible asynchrony matters only for interleaving, which
is modelled separately below. -/
structure Yobit where
  key : String
  secret : String
  proxyUrl : Option String
  nonce : Int
  nonceUpdateFn : Int → Int

/-- JavaScript `x || d` for the numeric `nonce` option
(src/Yobit.js:29): an absent value or the falsy number 0 selects the
default. -/
def jsOrNonce (n : Option Int) (dflt : Int) : Int :=
  match n with
  | none => dflt
  | some v => if v = 0 then dflt else v

/-- The constructor (src/Yobit.js:24-31).  It destructures `options`
unconditionally, so an absent `options` argument throws a `TypeError`
before any field is assigned: that is the `Except.error` branch.  `now`
stands for `Math.floor(+new Date()/1000)`, the current Unix time in
seconds at construction. -/
def construct (key secret : String) (options : Option YobitOptions)
    (now : Int) : Except String Yobit :=
  match options with
  | none => .error "TypeError: Cannot destructure property of undefined"
  | some o =>
    .ok { key := key, secret := secret, proxyUrl := o.proxyUrl,
          nonce := jsOrNonce o.nonce now,
          nonceUpdateFn := o.nonceUpdateFn.getD (fun nonce => nonce + 1) }

/-- JavaScript property assignment `obj[k] = v` on an insertion-ordered
mapping: if the key exists its value is replaced in place, otherwise the
key is appended. -/
def jsSetProp {β : Type} (l : List (String × β)) (k : String) (v : β) :
    List (String × β) :=
  if l.any (fun p => p.1 = k)
  then l.map (fun p => if p.1 = k then (k, v) else p)
  else l ++ [(k, v)]

/-- The `cfg` argument of `_request` as the wrappers build it: `headers`
and `form` may be absent (src/Yobit.js:151, 155), `proxy` may be absent
or a falsy/empty override (src/Yobit.js:160). -/
structure RequestCfg where
  uri : String
  httpMethod : Option String
  form : Option (List (String × JsVal))
  headers : Option (List (String × String))
  proxy : Option String
deriving Repr

/-- `Yobit._request` (src/Yobit.js:149-163) as a state transformer.
Line by line:
* line 151-152: missing `cfg.headers` becomes `{}`;
* line 153: `this.nonce = await this.nonceUpdateFn(this.nonce)` — the
  awaited policy applied to the stored nonce becomes the new stored nonce
  (the await itself is function application here; the suspension point it
  creates is modelled by `concStep` below);
* line 155-156: missing `cfg.form` becomes `{}` and `cfg.form.nonce` is
  set to the updated nonce;
* line 157-158: headers `key` and `sign` are set, `sign` being the
  hex HMAC-SHA512 (abstracted as `hmac`) of the stringified form keyed by
  the secret;
* line 160: a falsy `cfg.proxy` (absent or empty string) is replaced by
  the instance proxy;
* line 161: `json = true`.
The returned pair is the updated instance and the option object passed to
`request-promise`. -/
def request (hmac : String → String → String) (self : Yobit)
    (cfg : RequestCfg) : Yobit × RpRequest :=
  let headers0 := cfg.headers.getD []
  let newNonce := self.nonceUpdateFn self.nonce
  let self' : Yobit := { self with nonce := newNonce }
  let form0 := cfg.form.getD []
  let form1 := jsSetProp form0 "nonce" (.num newNonce)
  let headers1 := jsSetProp headers0 "key" self.key
  let headers2 := jsSetProp headers1 "sign" (hmac (querystringStringify form1) self.secret)
  let proxy1 := match cfg.proxy with
    | none => self.proxyUrl
    | some p => if p = "" then self.proxyUrl else some p
  (self',
   { uri := cfg.uri, httpMethod := cfg.httpMethod, qs := none,
     headers := some headers2, form := some form1, proxy := proxy1,
     json := true })

/-- `Yobit.prototype.getInfo` (src/Yobit.js:197-205). -/
def getInfo (hmac : String → String → String) (self : Yobit) :
    Yobit × RpRequest :=
  request hmac self
    { uri := privateApiUrl, httpMethod := some "POST",
      form := some [("method", .str "getInfo")],
      headers := none, proxy := none }

/-- `Yobit.prototype.Trade` (src/Yobit.js:229-241): the pair goes through
`_formatPairs`. -/
def Trade (hmac : String → String → String) (self : Yobit) (pair : Pairs)
    (type : JsVal) (rate : JsVal) (amount : JsVal) : Yobit × RpRequest :=
  request hmac self
    { uri := privateApiUrl, httpMethod := some "POST",
      form := some [("method", .str "Trade"),
                    ("pair", .str (formatPairs pair)),
                    ("type", type), ("rate", rate), ("amount", amount)],
      headers := none, proxy := none }

/-- `Yobit.prototype.ActiveOrders` (src/Yobit.js:262-271): the pair goes
through `_formatPairs`. -/
def ActiveOrders (hmac : String → String → String) (self : Yobit)
    (pair : Pairs) : Yobit × RpRequest :=
  request hmac self
    { uri := privateApiUrl, httpMethod := some "POST",
      form := some [("method", .str "ActiveOrders"),
                    ("pair", .str (formatPairs pair))],
      headers := none, proxy := none }

/-- `Yobit.prototype.OrderInfo` (src/Yobit.js:293-302). -/
def OrderInfo (hmac : String → String → String) (self : Yobit)
    (order_id : Int) : Yobit × RpRequest :=
  request hmac self
    { uri := privateApiUrl, httpMethod := some "POST",
      form := some [("method", .str "OrderInfo"), ("order_id", .num order_id)],
      headers := none, proxy := none }

/-- `Yobit.prototype.CancelOrder` (src/Yobit.js:321-330). -/
def CancelOrder (hmac : String → String → String) (self : Yobit)
    (order_id : Int) : Yobit × RpRequest :=
  request hmac self
    { uri := privateApiUrl, httpMethod := some "POST",
      form := some [("method", .str "CancelOrder"), ("order_id", .num order_id)],
      headers := none, proxy := none }

/-- The destructured `options` of `TradeHistory` (src/Yobit.js:362): every
field is a JavaScript value, `JsVal.undef` when the caller omitted it.
`from` and `end` are Lean keywords, hence the trailing underscores. -/
structure TradeHistoryOptions where
  from_ : JsVal := .undef
  count : JsVal := .undef
  from_id : JsVal := .undef
  end_id : JsVal := .undef
  order : JsVal := .undef
  since : JsVal := .undef
  end_ : JsVal := .undef
  pair : JsVal := .undef
deriving DecidableEq, Repr

/-- `Yobit.prototype.TradeHistory` (src/Yobit.js:361-371): all eight
destructured option values are placed in the form unconditionally, in
source order, and `pair` is NOT passed through `_formatPairs`. -/
def TradeHistory (hmac : String → String → String) (self : Yobit)
    (options : TradeHistoryOptions := {}) : Yobit × RpRequest :=
  request hmac self
    { uri := privateApiUrl, httpMethod := some "POST",
      form := some [("method", .str "TradeHistory"),
                    ("from", options.from_), ("count", options.count),
                    ("from_id", options.from_id), ("end_id", options.end_id),
                    ("order", options.order), ("since", options.since),
                    ("end", options.end_), ("pair", options.pair)],
      headers := none, proxy := none }

/-- `Yobit.prototype.GetDepositAddress` (src/Yobit.js:387-397): the
wrapper substitutes the default `need_new = 0` itself. -/
def GetDepositAddress (hmac : String → String → String) (self : Yobit)
    (coinName : JsVal) (need_new : JsVal := .num 0) : Yobit × RpRequest :=
  request hmac self
    { uri := privateApiUrl, httpMethod := some "POST",
      form := some [("method", .str "GetDepositAddress"),
                    ("coinName", coinName), ("need_new", need_new)],
      headers := none, proxy := none }

/-- The nonce actually transmitted in a request body: the value of the
`nonce` form field (0 if absent, which never happens for `request`). -/
def sentNonce (r : RpRequest) : Int :=
  match (r.form.getD []).lookup "nonce" with
  | some (.num n) => n
  | _ => 0

/-- N private calls issued strictly sequentially, each completed before
the next begins: the updated instance of each call is the input of the
next.  Returns the final instance and the issued requests in order. -/
def runSeq (hmac : String → String → String) :
    Yobit → List RequestCfg → Yobit × List RpRequest
  | self, [] => (self, [])
  | self, cfg :: cfgs =>
    let r := request hmac self cfg
    let rest := runSeq hmac r.1 cfgs
    (rest.1, r.2 :: rest.2)

/-- The nonce values the default increment-by-one policy emits over `n`
sequential calls starting from stored nonce `start`:
`[start+1, start+2, ..., start+n]`. -/
def expectedTrace (start : Int) : Nat → List Int
  | 0 => []
  | n + 1 => (start + 1) :: expectedTrace (start + 1) n

/-!
Concurrency model for the nonce race.  An invocation of the async
`_request` runs synchronously up to its only `await`
(`this.nonce = await this.nonceUpdateFn(this.nonce)`, src/Yobit.js:153):
the right-hand side reads `this.nonce` and applies the policy, then the
task suspends.  When it is resumed it assigns the computed value to
`this.nonce` and, with no further suspension point before the body is
built, puts that value in the form (src/Yobit.js:156).  So each call
decomposes into exactly two atomic steps against the shared nonce:
`read + compute pending`, then `commit pending + emit it in the body`.
There is no lock in the source, so any interleaving of the steps of two
concurrent calls is possible; a schedule is the list of task choices.
-/

/-- Progress of one in-flight `_request` call. -/
inductive TStatus where
  | ready
  | suspended (pending : Int)
  | done (emitted : Int)
deriving DecidableEq, Repr

/-- Shared instance nonce plus the two concurrent calls. -/
structure ConcState where
  nonce : Int
  t1 : TStatus
  t2 : TStatus
deriving DecidableEq, Repr

/-- One atomic step of a task: from `ready`, read the shared nonce and
apply the policy (the code before the `await` completes on line 153);
from `suspended`, commit the pending value to the shared nonce and emit
it in the request body (lines 153 assignment and 156). -/
def taskStep (policy : Int → Int) (nonce : Int) : TStatus → Int × TStatus
  | .ready => (nonce, .suspended (policy nonce))
  | .suspended p => (p, .done p)
  | .done e => (nonce, .done e)

/-- Scheduler step: `true` advances task 1, `false` advances task 2. -/
def concStep (policy : Int → Int) (c : ConcState) (who : Bool) : ConcState :=
  if who then
    let r := taskStep policy c.nonce c.t1
    { c with nonce := r.1, t1 := r.2 }
  else
    let r := taskStep policy c.nonce c.t2
    { c with nonce := r.1, t2 := r.2 }

/-- Run a schedule of task choices. -/
def concRun (policy : Int → Int) (c : ConcState) : List Bool → ConcState
  | [] => c
  | w :: ws => concRun policy (concStep policy c w) ws

/-- Whether an `rp` option object carries any authentication material:
a `key` or `sign` header, or a `nonce` field in the form body or query
string. -/
def carriesAuth (r : RpRequest) : Bool :=
  ((r.headers.getD []).any fun p => p.1 = "key" || p.1 = "sign")
  || ((r.form.getD []).any fun p => p.1 = "nonce")
  || ((r.qs.getD []).any fun p => p.1 = "nonce")

/-- A concrete stand-in for the external hex HMAC-SHA512, used only to
instantiate theorems that quantify over the signing primitive. -/
def hmacStub (message secret : String) : String :=
  message ++ "|" ++ secret

/-- The client of the spec's end-to-end scenario: key `"k"`, secret
`"s"`, nonce 1000, default increment-by-one policy, no proxy. -/
def yob0 : Yobit :=
  { key := "k", secret := "s", proxyUrl := none, nonce := 1000,
    nonceUpdateFn := fun nonce => nonce + 1 }

/-- A concrete private-call configuration (the one `getInfo` builds). -/
def cfg0 : RequestCfg :=
  { uri := privateApiUrl, httpMethod := some "POST",
    form := some [("method", .str "getInfo")], headers := none,
    proxy := none }

/-! Lemmas about `jsSetProp` and `request`. -/

theorem jsSetProp_cons {β : Type} (p : String × β) (ps : List (String × β))
    (k : String) (v : β) :
    jsSetProp (p :: ps) k v =
      if p.1 = k
      then (k, v) :: ps.map (fun q => if q.1 = k then (k, v) else q)
      else p :: jsSetProp ps k v := by
  by_cases h : p.1 = k
  · simp [jsSetProp, h]
  · by_cases h2 : ps.any (fun q => q.1 = k) <;> simp [jsSetProp, h, h2]

theorem lookup_jsSetProp_self {β : Type} (l : List (String × β))
    (k : String) (v : β) : (jsSetProp l k v).lookup k = some v := by
  induction l with
  | nil => simp [jsSetProp, List.lookup]
  | cons p ps ih =>
    obtain ⟨a, b⟩ := p
    rw [jsSetProp_cons]
    by_cases h : a = k
    · simp [h, List.lookup]
    · have hba : (k == a) = false := by simp [Ne.symm h]
      simpa [List.lookup, h, hba] using ih

theorem request_fst (hmac : String → String → String) (self : Yobit)
    (cfg : RequestCfg) :
    (request hmac self cfg).1
      = { self with nonce := self.nonceUpdateFn self.nonce } := rfl

theorem request_sentNonce (hmac : String → String → String) (self : Yobit)
    (cfg : RequestCfg) :
    sentNonce (request hmac self cfg).2 = self.nonceUpdateFn self.nonce := by
  simp [sentNonce, request, lookup_jsSetProp_self]

/-- C7: `_formatPairs` maps `["BTC_USD"]` to `"btc_usd"` and
`["BTC_USD","LTC_BTC"]` to `"btc_usd-ltc_btc"` (join with `-`, then
lower-case), and maps any single string input to that string lower-cased
and otherwise unchanged. -/
theorem formatPairs_spec :
    formatPairs (.arr ["BTC_USD"]) = "btc_usd"
    ∧ formatPairs (.arr ["BTC_USD", "LTC_BTC"]) = "btc_usd-ltc_btc"
    ∧ (∀ s : String, formatPairs (.str s) = jsToLowerCase s)
    ∧ (∀ l : List String, formatPairs (.arr l) = jsToLowerCase (joinWith "-" l)) :=
  ⟨by decide, by decide, fun _ => rfl, fun _ => rfl⟩

/-- C8: every request issued by the public accessors (`info`, `ticker`,
`depth`, `trades`) carries no credentials and no nonce: the option object
has no headers object at all and no form body, and in particular no
`key` header, no `sign` header and no `nonce` field anywhere, for every
input. -/
theorem public_requests_carry_no_auth (p1 p2 p3 : Pairs) (limit : Int) :
    (info.headers = none ∧ info.form = none ∧ carriesAuth info = false)
    ∧ ((ticker p1).headers = none ∧ (ticker p1).form = none
        ∧ carriesAuth (ticker p1) = false)
    ∧ ((depth p2 limit).headers = none ∧ (depth p2 limit).form = none
        ∧ carriesAuth (depth p2 limit) = false)
    ∧ ((trades p3).headers = none ∧ (trades p3).form = none
        ∧ carriesAuth (trades p3) = false) :=
  ⟨⟨rfl, rfl, rfl⟩, ⟨rfl, rfl, rfl⟩, ⟨rfl, rfl, rfl⟩, ⟨rfl, rfl, rfl⟩⟩

/-- C9: constructing a client without an options argument fails (the
constructor destructures `options` unconditionally, throwing a
`TypeError` on `undefined`), while an empty options object succeeds with
all defaults. -/
theorem constructor_requires_options (key secret : String) (now : Int) :
    (construct key secret none now).isOk = false
    ∧ (construct key secret
        (some { nonce := none, nonceUpdateFn := none, proxyUrl := none })
        now).isOk = true :=
  ⟨rfl, rfl⟩

/-- C10: a falsy construction option is treated as absent: an initial
nonce of 0 is replaced by the current Unix timestamp (`now`), and a
falsy `nonceUpdateFn` yields the default increment-by-one policy. -/
theorem falsy_options_use_defaults (key secret : String)
    (proxy : Option String) (now : Int) :
    construct key secret
        (some { nonce := some 0, nonceUpdateFn := none, proxyUrl := proxy })
        now
      = .ok { key := key, secret := secret, proxyUrl := proxy, nonce := now,
              nonceUpdateFn := fun nonce => nonce + 1 } := rfl

/-- C3 (refuting the claimed mutual exclusion, confirming the spec's
requirement is violated): with the default policy and initial nonce 1000,
the interleaving in which both concurrent `_request` calls pass their
read-and-compute step (src/Yobit.js:153, up to the `await`) before either
commits makes both calls emit the same nonce 1001, whereas the fully
serialized schedule emits the distinct nonces 1001 and 1002.  The source
has no lock, so both schedules are possible. -/
theorem concurrent_duplicate_nonce :
    ((concRun (fun nonce => nonce + 1) ⟨1000, .ready, .ready⟩
        [true, false, true, false]).t1 = .done 1001
      ∧ (concRun (fun nonce => nonce + 1) ⟨1000, .ready, .ready⟩
        [true, false, true, false]).t2 = .done 1001)
    ∧ ((concRun (fun nonce => nonce + 1) ⟨1000, .ready, .ready⟩
        [true, true, false, false]).t1 = .done 1001
      ∧ (concRun (fun nonce => nonce + 1) ⟨1000, .ready, .ready⟩
        [true, true, false, false]).t2 = .done 1002) := by
  decide

/-- C2 (counterexample): calling `TradeHistory` with every option omitted
on the end-to-end client serializes all eight destructured-but-undefined
parameters as empty placeholders: the form carries `from` with value
`undefined` and the signed body string contains `from=`, `count=`, ...,
`pair=`. -/
theorem tradeHistory_undef_placeholder_counterexample :
    ((TradeHistory hmacStub yob0).2.form.getD []).lookup "from"
        = some JsVal.undef
    ∧ querystringStringify ((TradeHistory hmacStub yob0).2.form.getD [])
        = "method=TradeHistory&from=&count=&from_id=&end_id=&order=&since=&end=&pair=&nonce=1001" :=
  ⟨by decide, by decide⟩

/-- C2 (amended): a parameter whose value is omitted/undefined IS
serialized into the signed body whenever the calling wrapper passes the
key through (as `TradeHistory` does for all eight of its options): the
key appears with an empty-string placeholder value `key=`.  Only wrappers
that substitute an explicit default avoid the placeholder. -/
theorem undef_params_serialized (hmac : String → String → String)
    (self : Yobit) :
    (((TradeHistory hmac self).2.form.getD []).lookup "from" = some JsVal.undef)
    ∧ (((TradeHistory hmac self).2.form.getD []).lookup "count" = some JsVal.undef)
    ∧ (((TradeHistory hmac self).2.form.getD []).lookup "from_id" = some JsVal.undef)
    ∧ (((TradeHistory hmac self).2.form.getD []).lookup "end_id" = some JsVal.undef)
    ∧ (((TradeHistory hmac self).2.form.getD []).lookup "order" = some JsVal.undef)
    ∧ (((TradeHistory hmac self).2.form.getD []).lookup "since" = some JsVal.undef)
    ∧ (((TradeHistory hmac self).2.form.getD []).lookup "end" = some JsVal.undef)
    ∧ (((TradeHistory hmac self).2.form.getD []).lookup "pair" = some JsVal.undef)
    ∧ (∀ k : String, querystringStringify [(k, JsVal.undef)] = qsEscape k ++ "=") := by
  refine ⟨rfl, rfl, rfl, rfl, rfl, rfl, rfl, rfl, fun k => ?_⟩
  show qsEscape k ++ "=" ++ JsVal.undef.serialize = qsEscape k ++ "="
  simp [JsVal.serialize]

/-- C6 (counterexample): `TradeHistory` does not pass its `pair` option
through `_formatPairs`: called with `pair = "BTC_USD"`, the signed body
carries `BTC_USD` verbatim, although the normalizer would produce
`btc_usd`. -/
theorem tradeHistory_pair_not_normalized_counterexample :
    ((TradeHistory hmacStub yob0 { pair := JsVal.str "BTC_USD" }).2.form.getD
        []).lookup "pair" = some (JsVal.str "BTC_USD")
    ∧ formatPairs (.str "BTC_USD") = "btc_usd"
    ∧ JsVal.str "BTC_USD" ≠ JsVal.str (formatPairs (.str "BTC_USD")) :=
  ⟨by decide, by decide, by decide⟩

/-- C6 (amended): `Trade` and `ActiveOrders` pass their pair parameter
through `_formatPairs` before placing it in the request body, but
`TradeHistory` places its `pair` option in the body unchanged. -/
theorem pair_normalization_per_wrapper (hmac : String → String → String)
    (self : Yobit) (pair : Pairs) (type rate amount : JsVal)
    (o : TradeHistoryOptions) :
    (((Trade hmac self pair type rate amount).2.form.getD []).lookup "pair"
        = some (JsVal.str (formatPairs pair)))
    ∧ (((ActiveOrders hmac self pair).2.form.getD []).lookup "pair"
        = some (JsVal.str (formatPairs pair)))
    ∧ (((TradeHistory hmac self o).2.form.getD []).lookup "pair" = some o.pair) :=
  ⟨rfl, rfl, rfl⟩

/-- C5: every private call applies the configured nonce-update policy to
the stored nonce exactly once and stores the result as the new current
nonce; that same value is the body's `nonce` field; the `sign` header is
the HMAC of the serialized body that already contains it; and no other
instance field changes (`key`, `secret`, `proxyUrl`, `nonceUpdateFn` are
all preserved). -/
theorem request_nonce_effect_and_frame (hmac : String → String → String)
    (self : Yobit) (cfg : RequestCfg) :
    ((request hmac self cfg).1.nonce = self.nonceUpdateFn self.nonce)
    ∧ ((request hmac self cfg).1.key = self.key)
    ∧ ((request hmac self cfg).1.secret = self.secret)
    ∧ ((request hmac self cfg).1.proxyUrl = self.proxyUrl)
    ∧ ((request hmac self cfg).1.nonceUpdateFn = self.nonceUpdateFn)
    ∧ (((request hmac self cfg).2.form.getD []).lookup "nonce"
        = some (JsVal.num ((request hmac self cfg).1.nonce)))
    ∧ (((request hmac self cfg).2.headers.getD []).lookup "sign"
        = some (hmac
            (querystringStringify ((request hmac self cfg).2.form.getD []))
            self.secret)) := by
  refine ⟨rfl, rfl, rfl, rfl, rfl, ?_, ?_⟩
  · simp [request, lookup_jsSetProp_self]
  · simp [request, lookup_jsSetProp_self]

/-- C1: a client constructed with key `"k"`, secret `"s"`, initial nonce
1000 and the default nonce policy, asked to cancel order 42, produces the
signed body string `method=CancelOrder&order_id=42&nonce=1001` (keys in
insertion order) and a `sign` header equal to the hex HMAC-SHA512
(abstracted as `hmac`) of exactly that string keyed by `"s"`. -/
theorem cancelOrder_end_to_end (hmac : String → String → String)
    (now : Int) (c : Yobit)
    (h : construct "k" "s"
        (some { nonce := some 1000, nonceUpdateFn := none, proxyUrl := none })
        now = .ok c) :
    querystringStringify ((CancelOrder hmac c 42).2.form.getD [])
      = "method=CancelOrder&order_id=42&nonce=1001"
    ∧ ((CancelOrder hmac c 42).2.headers.getD []).lookup "sign"
      = some (hmac "method=CancelOrder&order_id=42&nonce=1001" "s") := by
  have hc : c = yob0 := by
    simpa [construct, jsOrNonce, yob0] using h.symm
  subst hc
  have hbody : querystringStringify ((CancelOrder hmac yob0 42).2.form.getD [])
      = "method=CancelOrder&order_id=42&nonce=1001" := by
    have hconcrete : querystringStringify
        (jsSetProp [("method", JsVal.str "CancelOrder"),
          ("order_id", JsVal.num 42)] "nonce" (JsVal.num 1001))
        = "method=CancelOrder&order_id=42&nonce=1001" := by decide
    exact hconcrete
  refine ⟨hbody, ?_⟩
  have hsign : ((CancelOrder hmac yob0 42).2.headers.getD []).lookup "sign"
      = some (hmac
          (querystringStringify ((CancelOrder hmac yob0 42).2.form.getD []))
          "s") :=
    (request_nonce_effect_and_frame hmac yob0 _).2.2.2.2.2.2
  rw [hsign, hbody]

/-- C1 witness: the scenario evaluated at `now = 0` and the stub HMAC. -/
theorem cancelOrder_end_to_end_witness :
    (construct "k" "s"
        (some { nonce := some 1000, nonceUpdateFn := none, proxyUrl := none })
        0 = .ok yob0)
    ∧ (querystringStringify ((CancelOrder hmacStub yob0 42).2.form.getD [])
        = "method=CancelOrder&order_id=42&nonce=1001"
      ∧ ((CancelOrder hmacStub yob0 42).2.headers.getD []).lookup "sign"
        = some (hmacStub "method=CancelOrder&order_id=42&nonce=1001" "s")) :=
  ⟨rfl, cancelOrder_end_to_end hmacStub 0 yob0 rfl⟩

/-- Nonce trace of sequential private calls under the default policy:
the i-th issued request carries nonce `initial + i`. -/
theorem runSeq_nonceTrace (hmac : String → String → String)
    (cfgs : List RequestCfg) :
    ∀ self : Yobit, self.nonceUpdateFn = (fun nonce => nonce + 1) →
      (runSeq hmac self cfgs).2.map sentNonce
        = expectedTrace self.nonce cfgs.length := by
  induction cfgs with
  | nil => intro s hs; simp [runSeq, expectedTrace]
  | cons cfg cfgs ih =>
    intro s hs
    have hnext := ih { s with nonce := s.nonceUpdateFn s.nonce } hs
    simp only [runSeq, List.map_cons, List.length_cons, request_fst,
      expectedTrace]
    rw [request_sentNonce, hnext, hs]

theorem expectedTrace_length (start : Int) (n : Nat) :
    (expectedTrace start n).length = n := by
  induction n generalizing start with
  | zero => rfl
  | succ n ih => simp [expectedTrace, ih]

theorem expectedTrace_mem_gt (n : Nat) :
    ∀ (start : Int), ∀ x ∈ expectedTrace start n, start < x := by
  induction n with
  | zero => intro start x hx; simp [expectedTrace] at hx
  | succ n ih =>
    intro start x hx
    rcases (List.mem_cons).1 hx with h | h
    · omega
    · have := ih (start + 1) x h
      omega

theorem expectedTrace_pairwise_lt (n : Nat) :
    ∀ start : Int, (expectedTrace start n).Pairwise (· < ·) := by
  induction n with
  | zero => intro start; simp [expectedTrace]
  | succ n ih =>
    intro start
    refine (List.pairwise_cons).2 ⟨fun x hx => ?_, ih (start + 1)⟩
    exact expectedTrace_mem_gt n (start + 1) x hx

/-- C4: for every client with the default increment-by-one nonce policy,
N sequential private requests (each completed before the next begins)
carry N transmitted nonces that are strictly increasing, hence pairwise
distinct. -/
theorem sequential_nonces_strictly_increasing
    (hmac : String → String → String) (self : Yobit)
    (h : self.nonceUpdateFn = fun nonce => nonce + 1)
    (cfgs : List RequestCfg) :
    ((runSeq hmac self cfgs).2.map sentNonce).length = cfgs.length
    ∧ ((runSeq hmac self cfgs).2.map sentNonce).Pairwise (· < ·)
    ∧ ((runSeq hmac self cfgs).2.map sentNonce).Pairwise (· ≠ ·) := by
  have ht := runSeq_nonceTrace hmac cfgs self h
  rw [ht]
  refine ⟨expectedTrace_length _ _, expectedTrace_pairwise_lt _ _, ?_⟩
  exact (expectedTrace_pairwise_lt _ _).imp (fun hlt => ne_of_lt hlt)

/-- C4 witness: three sequential `getInfo`-shaped calls on the
end-to-end client transmit the nonces 1001, 1002, 1003. -/
theorem sequential_nonces_strictly_increasing_witness :
    ((runSeq hmacStub yob0 [cfg0, cfg0, cfg0]).2.map sentNonce
        = [1001, 1002, 1003])
    ∧ ((runSeq hmacStub yob0 [cfg0, cfg0, cfg0]).2.map sentNonce).Pairwise (· < ·)
    ∧ ((runSeq hmacStub yob0 [cfg0, cfg0, cfg0]).2.map sentNonce).Pairwise (· ≠ ·) := by
  have h := sequential_nonces_strictly_increasing hmacStub yob0 rfl
    [cfg0, cfg0, cfg0]
  exact ⟨by decide, h.2.1, h.2.2⟩

end YobitModel
